import Mathlib

/-!
A verification development for the invoice-tracker extraction/normalization
core.  The JavaScript/TypeScript source is shallowly embedded: JS numbers are
modelled exactly as rationals (ℚ), JS strings as `String`/`List Char`,
nullable values as `Option`, and the external document store / object storage /
extraction service as an explicit oracle (`Env`).  Unicode-only details of the
JS regexes (non-ASCII whitespace and word characters) are modelled over the
ASCII classes, which is faithful for every ASCII input.
-/

/-- JS `\s` whitespace class (ASCII part). -/
def jsIsSpace (c : Char) : Bool :=
  c = ' ' || c = '\t' || c = '\n' || c = '\r' || c = '\x0b' || c = '\x0c'

/-- JS `\w` word-character class `[A-Za-z0-9_]`. -/
def isWordChar (c : Char) : Bool :=
  c.isAlpha || c.isDigit || c = '_'

/-- One step of `String(text).replace(/\s+/g, " ")`: each maximal whitespace
run becomes a single space.  `prevSpace` records whether the previous input
character was whitespace. -/
def squeezeAux : Bool → List Char → List Char
  | _, [] => []
  | prevSpace, c :: rest =>
    if jsIsSpace c then
      if prevSpace then squeezeAux true rest
      else ' ' :: squeezeAux true rest
    else c :: squeezeAux false rest

/-- `s.replace(/\s+/g, " ")`. -/
def squeeze (s : List Char) : List Char := squeezeAux false s

/-- Strip trailing JS whitespace. -/
def trimEndWs (s : List Char) : List Char :=
  (s.reverse.dropWhile jsIsSpace).reverse

/-- JS `String.prototype.trim`. -/
def trimWs (s : List Char) : List Char :=
  trimEndWs (s.dropWhile jsIsSpace)

/-- JS `String.prototype.trim` on `String`. -/
def trimStr (s : String) : String := String.mk (trimWs s.data)

/-- Numeric value of a list of decimal digit characters (empty list is 0,
matching JS `Number` on a missing integer or fraction part). -/
def digitsToNat (ds : List Char) : ℕ :=
  ds.foldl (fun n c => n * 10 + (c.toNat - 48)) 0

/-- Decimal digit characters of a natural number (fuel-based so that the
kernel can evaluate it; the fuel `n+1` always suffices). -/
def natDigitsAux : ℕ → ℕ → List Char → List Char
  | 0, _, acc => acc
  | fuel + 1, n, acc =>
    let d := Char.ofNat (48 + n % 10)
    if n < 10 then d :: acc else natDigitsAux fuel (n / 10) (d :: acc)

/-- JS decimal rendering of a natural number (as in template interpolation of
an integral JS number). -/
def natDigits (n : ℕ) : List Char := natDigitsAux (n + 1) n []

/-- The strip in `toNumberLoose`: `s.replace(/[^0-9.\-]/g, "")`. -/
def jsStripNonNumeric (s : List Char) : List Char :=
  s.filter (fun c => c.isDigit || c = '.' || c = '-')

/-- Rational value of a decimal literal split into integer-part and
fraction-part digit lists. -/
def decValue (ip fp : List Char) : ℚ :=
  (digitsToNat ip : ℚ) + (digitsToNat fp : ℚ) / ((10 : ℚ) ^ fp.length)

/-- JS `Number()` applied to a string containing only digits, `.` and `-`
(the only characters surviving `jsStripNonNumeric`).  `Number("") = 0`;
a sign is allowed only once and only leading; at most one decimal point;
at least one digit is required; otherwise NaN (here `none`). -/
def jsParseNumber (cs : List Char) : Option ℚ :=
  if cs.isEmpty then some 0
  else
    let neg : Bool := cs.headI = '-'
    let body := if neg then cs.tail else cs
    if body.any (fun c => c = '-') then none
    else if 2 ≤ (body.filter (fun c => c = '.')).length then none
    else if !(body.any Char.isDigit) then none
    else
      let intPart := body.takeWhile (fun c => c ≠ '.')
      let fracPart := (body.dropWhile (fun c => c ≠ '.')).tail
      some (if neg then -(decValue intPart fracPart) else decValue intPart fracPart)

/-- `toNumberLoose` from the source: strip every character except digits,
`.`, `-`, then `Number(...)`, returning null when the result is not finite. -/
def toNumberLoose (s : String) : Option ℚ :=
  jsParseNumber (jsStripNonNumeric s.data)

/-- `toNumberLoose` at the `List Char` level (used inside the mention-text
scanner, where the source calls `toNumberLoose(raw)` on the matched token). -/
def tokenValue (tok : List Char) : Option ℚ :=
  jsParseNumber (jsStripNonNumeric tok)

/-- Length of the maximal digit run at the head of the list. -/
def digitRunLen (cs : List Char) : ℕ :=
  (cs.takeWhile Char.isDigit).length

/-- Greedy count of `(?:,\d{3})` groups consumable at the head of the list. -/
def commaGroups : List Char → ℕ
  | ',' :: a :: b :: c :: rest =>
    if a.isDigit && b.isDigit && c.isDigit then commaGroups rest + 1 else 0
  | _ => 0

/-- Match `\.\d{2}\b` at the head of the list, returning the consumed length. -/
def moneyTail (cs : List Char) : Option ℕ :=
  match cs with
  | '.' :: a :: b :: rest =>
    if a.isDigit && b.isDigit &&
       (match rest with | [] => true | c :: _ => !(isWordChar c)) then some 3
    else none
  | _ => none

/-- Backtracking over the group count of `(?:,\d{3})*` (greedy: `k` groups
first, then `k-1`, ...).  Returns the total length consumed by the groups and
the `\.\d{2}\b` tail. -/
def tryGroups : ℕ → List Char → Option ℕ
  | k, cs =>
    match moneyTail (cs.drop (4 * k)) with
    | some t => some (4 * k + t)
    | none => match k with
      | 0 => none
      | k' + 1 => tryGroups k' cs

/-- Backtracking over the digit count of `\d{1,3}` (greedy: `d` digits first,
then `d-1`, ...).  `d` is at most `min 3 (digitRunLen cs)`, so the tried
prefixes are always digits. -/
def tryDigits : ℕ → List Char → Option ℕ
  | 0, _ => none
  | d + 1, cs =>
    let rest := cs.drop (d + 1)
    match tryGroups (commaGroups rest) rest with
    | some t => some (d + 1 + t)
    | none => tryDigits d cs

/-- Match the money pattern `\d{1,3}(?:,\d{3})*\.\d{2}\b` at the head of the
list (the leading `\b` is checked by the caller), returning the match
length. -/
def matchMoneyFrom (cs : List Char) : Option ℕ :=
  tryDigits (min 3 (digitRunLen cs)) cs

/-- `\b` before a digit: the previous character (if any) is not a word
character. -/
def boundaryBefore (prev : Option Char) : Bool :=
  match prev with
  | none => true
  | some c => !(isWordChar c)

/-- The `moneyRegex.exec` loop: scan left to right, recording each match's
token and start offset and resuming after the match.  Fuel-based (`fuel`
starts at the list length, which suffices since every step consumes at least
one character). -/
def moneyScanAux : ℕ → Option Char → ℕ → List Char → List (List Char × ℕ)
  | 0, _, _, _ => []
  | fuel + 1, prev, idx, cs =>
    match cs with
    | [] => []
    | c :: rest =>
      if boundaryBefore prev then
        match matchMoneyFrom cs with
        | some L =>
          (cs.take L, idx) :: moneyScanAux fuel (cs.get? (L - 1)) (idx + L) (cs.drop L)
        | none => moneyScanAux fuel (some c) (idx + 1) rest
      else moneyScanAux fuel (some c) (idx + 1) rest

/-- All money-shaped matches of the collapsed mention text. -/
def moneyScan (cs : List Char) : List (List Char × ℕ) :=
  moneyScanAux cs.length none 0 cs

/-- The `moneyMatches` array of the source: each regex match with its parsed
value and start offset (`toNumberLoose` never fails on a money-shaped token,
but the source guards with `if (value == null) continue`). -/
def moneyMatchesChars (cs : List Char) : List (ℚ × ℕ) :=
  (moneyScan cs).filterMap (fun p => (tokenValue p.1).map (fun v => (v, p.2)))

/-- The `qtyRegex = /\b\d+\b/g` matchAll loop: maximal digit runs whose
neighbours are not word characters. -/
def bareIntAux : ℕ → Option Char → List Char → List (List Char)
  | 0, _, _ => []
  | fuel + 1, prev, cs =>
    match cs with
    | [] => []
    | c :: rest =>
      if boundaryBefore prev && c.isDigit then
        let run := cs.takeWhile Char.isDigit
        let after := cs.drop run.length
        if (match after with | [] => true | a :: _ => !(isWordChar a)) then
          run :: bareIntAux fuel (cs.get? (run.length - 1)) after
        else bareIntAux fuel (some c) rest
      else bareIntAux fuel (some c) rest

/-- All `\b\d+\b` matches of a string. -/
def bareIntRuns (cs : List Char) : List (List Char) :=
  bareIntAux cs.length none cs

/-- `description.replace(new RegExp("\\b" + quantity + "\\b\\s*$"), "")`:
remove the rendered quantity when it occurs as a standalone trailing token
(followed only by whitespace), leaving the string unchanged otherwise. -/
def stripTrailingQuantity (s : List Char) (q : ℕ) : List Char :=
  let ds := natDigits q
  let core := trimEndWs s
  if ds.length ≤ core.length &&
     decide (core.drop (core.length - ds.length) = ds) &&
     (decide (core.length = ds.length) ||
      !(isWordChar (core.getD (core.length - ds.length - 1) ' '))) then
    core.take (core.length - ds.length)
  else s

/-- `Math.round(x * 100) / 100` (JS `Math.round` is floor of `x + 1/2`). -/
def round2 (x : ℚ) : ℚ := ((⌊x * 100 + 1 / 2⌋ : ℤ) : ℚ) / 100

/-- The canonical line-item record of the source. -/
structure LineItem where
  description : Option String
  quantity : Option ℚ
  unitPrice : Option ℚ
  amount : Option ℚ
deriving DecidableEq, Repr

/-- The money-role assignment of the source (`moneyMatches.length >= 2` gives
second-to-last as unit price and last as amount; exactly one gives amount
only): returns `(unitPrice, amount)`. -/
def moneyRoles (ms : List (ℚ × ℕ)) : Option ℚ × Option ℚ :=
  if 2 ≤ ms.length then
    (some (ms.getD (ms.length - 2) (0, 0)).1, some (ms.getD (ms.length - 1) (0, 0)).1)
  else if ms.length = 1 then
    (none, some (ms.getD 0 (0, 0)).1)
  else (none, none)

/-- The backfill block of `parseLineItemFromMentionText` (source lines
"Compute missing fields when possible"), returning
`(unitPrice, amount)` after the two guarded assignments. -/
def backfill (quantity unitPrice amount : Option ℚ) : Option ℚ × Option ℚ :=
  let amount' : Option ℚ :=
    match amount, quantity, unitPrice with
    | none, some q, some u => some (round2 (q * u))
    | a, _, _ => a
  let unitPrice' : Option ℚ :=
    match unitPrice, quantity, amount' with
    | none, some q, some a => if q ≠ 0 then some (round2 (a / q)) else none
    | u, _, _ => u
  (unitPrice', amount')

/-- `String(text || "").replace(/\s+/g, " ").trim()`. -/
def collapseTrim (text : String) : List Char :=
  trimWs (squeeze text.data)

/-- The money matches of an input string, as computed inside
`parseLineItemFromMentionText` (on the collapsed text). -/
def moneyMatchesOf (text : String) : List (ℚ × ℕ) :=
  moneyMatchesChars (collapseTrim text)

/-- The `firstMoneyStart` local of the source (`mt.length` when there is no
money match). -/
def firstMoneyStartOf (mt : List Char) : ℕ :=
  match moneyMatchesChars mt with
  | [] => mt.length
  | m :: _ => m.2

/-- The `beforeMoney` local of the source: the trimmed prefix before the
first money match. -/
def beforeMoneyOf (mt : List Char) : List Char :=
  trimWs (mt.take (firstMoneyStartOf mt))

/-- The `quantity` local of the source, as a natural number: the last bare
integer before the money matches. -/
def quantityNOf (mt : List Char) : Option ℕ :=
  (bareIntRuns (beforeMoneyOf mt)).getLast?.map digitsToNat

/-- The `quantity` local of the source (a JS number). -/
def quantityOf (mt : List Char) : Option ℚ :=
  (quantityNOf mt).map (fun n => (n : ℚ))

/-- The `description` local of the source after the trailing-quantity strip
and the fallback to the whole mention text. -/
def descriptionOf (mt : List Char) : List Char :=
  let d1 : List Char :=
    match quantityNOf mt with
    | none => beforeMoneyOf mt
    | some q => trimWs (stripTrailingQuantity (beforeMoneyOf mt) q)
  if d1.isEmpty then mt else d1

/-- The result record built by `parseLineItemFromMentionText` on a non-empty
collapsed mention text. -/
def buildLineItem (mt : List Char) : LineItem :=
  let roles := moneyRoles (moneyMatchesChars mt)
  let bf := backfill (quantityOf mt) roles.1 roles.2
  { description := if (descriptionOf mt).isEmpty then none else some (String.mk (descriptionOf mt)),
    quantity := quantityOf mt,
    unitPrice := bf.1,
    amount := bf.2 }

/-- `parseLineItemFromMentionText` from the source (continued): collapse the
text, return the all-null item on an empty string, otherwise build the item
from the money/quantity/description locals. -/
def parseLineItemFromMentionText (text : String) : LineItem :=
  let mt := collapseTrim text
  if mt.isEmpty then { description := none, quantity := none, unitPrice := none, amount := none }
  else buildLineItem mt

/-- `normalizedValue.moneyValue{units, nanos}` of a raw entity (protobuf-style
fixed-point money).  `Option` models JS `undefined`. -/
structure MoneyValue where
  units : Option ℤ
  nanos : Option ℤ
deriving DecidableEq, Repr

/-- `normalizedValue.dateValue{year, month, day}` of a raw entity. -/
structure DateValue where
  year : Option ℤ
  month : Option ℤ
  day : Option ℤ
deriving DecidableEq, Repr

/-- `normalizedValue` of a raw entity. -/
structure NormalizedValue where
  text : Option String
  moneyValue : Option MoneyValue
  dateValue : Option DateValue
deriving DecidableEq, Repr

/-- A raw extraction-service entity: `type`, `mentionText`, `normalizedValue`,
`properties` (child entities of a `line_item`; `none` models a missing or
non-array value, matching the source's `Array.isArray` guard), and the
diagnostics-only `confidence`. -/
inductive RawEntity where
  | mk (type : Option String) (mentionText : Option String)
       (normalizedValue : Option NormalizedValue)
       (properties : Option (List RawEntity))
       (confidence : Option ℚ)

def RawEntity.type : RawEntity → Option String
  | .mk t _ _ _ _ => t

def RawEntity.mentionText : RawEntity → Option String
  | .mk _ m _ _ _ => m

def RawEntity.normalizedValue : RawEntity → Option NormalizedValue
  | .mk _ _ nv _ _ => nv

def RawEntity.properties : RawEntity → Option (List RawEntity)
  | .mk _ _ _ ps _ => ps

/-- JS `String.toLowerCase` (ASCII). -/
def lowerStr (s : String) : String := String.mk (s.data.map Char.toLower)

/-- `pickEntity` from the source: first entity whose lower-cased type is in
the lower-cased alias set. -/
def pickEntity (entities : List RawEntity) (types : List String) : Option RawEntity :=
  entities.find? (fun e => (types.map lowerStr).contains (lowerStr (e.type.getD "")))

/-- `entityText` from the source: `e.normalizedValue?.text ?? e.mentionText ?? null`. -/
def entityText (e : Option RawEntity) : Option String :=
  match e with
  | none => none
  | some e =>
    match e.normalizedValue.bind NormalizedValue.text with
    | some t => some t
    | none => e.mentionText

/-- `e.normalizedValue?.moneyValue`. -/
def entityNormalizedMoney (e : RawEntity) : Option MoneyValue :=
  e.normalizedValue.bind NormalizedValue.moneyValue

/-- `entityMoneyToNumber` from the source: prefer the structured
`moneyValue` (when `units` or `nanos` is defined, a missing component being
`0`), otherwise loose numeric parsing of the entity's text (`null` when the
text itself is missing or empty, since `if (!t) return null`). -/
def entityMoneyToNumber (e : Option RawEntity) : Option ℚ :=
  match e with
  | none => none
  | some e =>
    match entityNormalizedMoney e with
    | some mv =>
      if mv.units.isSome || mv.nanos.isSome then
        some ((mv.units.getD 0 : ℚ) + (mv.nanos.getD 0 : ℚ) / 1000000000)
      else
        match entityText (some e) with
        | none => none
        | some t => if t = "" then none else toNumberLoose t
    | none =>
      match entityText (some e) with
      | none => none
      | some t => if t = "" then none else toNumberLoose t

/-- `entityDateToTimestamp` from the source: requires all of year/month/day
to be present and nonzero (JS truthiness of `dv.year && dv.month && dv.day`);
the resulting local-midnight timestamp is modelled by the raw calendar
triple. -/
def entityDateToTimestamp (e : Option RawEntity) : Option (ℤ × ℤ × ℤ) :=
  match e with
  | none => none
  | some e =>
    match e.normalizedValue.bind NormalizedValue.dateValue with
    | some dv =>
      match dv.year, dv.month, dv.day with
      | some y, some m, some d =>
        if y ≠ 0 ∧ m ≠ 0 ∧ d ≠ 0 then some (y, m, d) else none
      | _, _, _ => none
    | none => none

/-- `quantityText ? toNumberLoose(quantityText) : null` (truthiness: an empty
string is falsy). -/
def quantityFromText (t : Option String) : Option ℚ :=
  match t with
  | none => none
  | some s => if s = "" then none else toNumberLoose s

/-- JS truthiness of `!item.description`: missing or empty. -/
def descMissing (d : Option String) : Bool :=
  match d with
  | none => true
  | some s => s = ""

/-- `parseLineItems` from the source: one `LineItem` per `line_item` entity,
preferring structured child properties, falling back to heuristic
mention-text parsing when properties are absent or everything resolved to
null despite non-empty mention text. -/
def parseLineItems (entities : List RawEntity) : List LineItem :=
  (entities.filter (fun e => lowerStr (e.type.getD "") = "line_item")).map (fun li =>
    let props := li.properties.getD []
    let descriptionProp :=
      entityText (pickEntity props ["description", "item_description", "product_description", "name"])
    let quantityText := entityText (pickEntity props ["quantity", "qty"])
    let unitPriceProp := entityMoneyToNumber (pickEntity props ["unit_price", "price", "unit_cost"])
    let amountProp := entityMoneyToNumber (pickEntity props ["amount", "line_item_amount", "total_price"])
    let quantityProp := quantityFromText quantityText
    let item : LineItem :=
      { description := descriptionProp, quantity := quantityProp,
        unitPrice := unitPriceProp, amount := amountProp }
    let mt := li.mentionText.getD ""
    let needsFallback :=
      props.isEmpty ||
      (descMissing item.description && item.quantity.isNone && item.unitPrice.isNone &&
        item.amount.isNone && !(mt = ""))
    if needsFallback && !(mt = "") then
      let fb := parseLineItemFromMentionText mt
      { description := item.description.orElse (fun _ => fb.description),
        quantity := item.quantity.orElse (fun _ => fb.quantity),
        unitPrice := item.unitPrice.orElse (fun _ => fb.unitPrice),
        amount := item.amount.orElse (fun _ => fb.amount) }
    else item)

/-- Alias lists used by the header-field extraction in
`processInvoiceDocument`. -/
def supplierNameAliases : List String := ["supplier_name", "supplier", "vendor_name", "vendor"]

def supplierAddressAliases : List String := ["supplier_address", "vendor_address", "address"]

def invoiceNumberAliases : List String := ["invoice_id", "invoice_number", "invoice_no"]

def purchaseOrderAliases : List String := ["purchase_order", "purchase_order_number", "po_number", "po"]

def invoiceDateAliases : List String := ["invoice_date", "date"]

def dueDateAliases : List String := ["due_date"]

def subtotalAliases : List String := ["subtotal_amount", "subtotal"]

def taxAliases : List String := ["total_tax_amount", "tax_amount", "tax"]

def totalAliases : List String := ["total_amount", "invoice_total", "amount_due", "total"]

/-- The canonical extraction output (the fields written by the success path
of `processInvoiceDocument`; the `rawEntities` debug payload and the
timestamps are not part of the canonical fields). -/
structure InvoiceFields where
  supplierName : Option String
  supplierAddress : Option String
  invoiceNumber : Option String
  purchaseOrderNumber : Option String
  invoiceDate : Option (ℤ × ℤ × ℤ)
  dueDate : Option (ℤ × ℤ × ℤ)
  subtotal : Option ℚ
  tax : Option ℚ
  total : Option ℚ
  lineItems : List LineItem
deriving DecidableEq, Repr

/-- The header-fields + line-items normalization block of
`processInvoiceDocument` (the `InvoiceNormalizer` of the spec). -/
def normalizeFields (entities : List RawEntity) : InvoiceFields :=
  { supplierName := entityText (pickEntity entities supplierNameAliases),
    supplierAddress := entityText (pickEntity entities supplierAddressAliases),
    invoiceNumber := entityText (pickEntity entities invoiceNumberAliases),
    purchaseOrderNumber := entityText (pickEntity entities purchaseOrderAliases),
    invoiceDate := entityDateToTimestamp (pickEntity entities invoiceDateAliases),
    dueDate := entityDateToTimestamp (pickEntity entities dueDateAliases),
    subtotal := entityMoneyToNumber (pickEntity entities subtotalAliases),
    tax := entityMoneyToNumber (pickEntity entities taxAliases),
    total := entityMoneyToNumber (pickEntity entities totalAliases),
    lineItems := parseLineItems entities }

/-- The persisted invoice record (the Firestore document fields this core
reads or writes; timestamps are omitted, `update` merge semantics are
modelled by Lean record update). -/
structure InvoiceRecord where
  userId : Option String
  status : Option String
  storagePath : Option String
  contentType : Option String
  skipProcessing : Bool
  errorMessage : Option String
  fields : InvoiceFields
deriving DecidableEq, Repr

/-- The external world of the processing body: given a storage path, either
the extraction pipeline (metadata fetch, download, Document AI call and its
environment checks) fails with an error message, or it returns the entity
list.  Every failure mode of the source's `try` block is a `.error`. -/
structure Env where
  extraction : String → Except String (List RawEntity)

/-- `processInvoiceDocument` from the source: mark the record `processing`
(clearing `errorMessage` when requested), then fetch + extract + normalize;
on success write all canonical fields and `status = needs_review`; on any
failure write `status = error` with the failure's description.  The returned
record is the document state after the final merge-update. -/
def processInvoiceDocument (env : Env) (data : InvoiceRecord) (clearError : Bool) :
    InvoiceRecord :=
  let r1 : InvoiceRecord :=
    { data with
      status := some "processing",
      errorMessage := if clearError then none else data.errorMessage }
  let sp := data.storagePath.getD ""
  if sp = "" then
    { r1 with
      status := some "error",
      errorMessage := some "Missing storagePath on invoice document." }
  else
    match env.extraction sp with
    | .error msg => { r1 with status := some "error", errorMessage := some msg }
    | .ok entities =>
      { r1 with status := some "needs_review", fields := normalizeFields entities }

/-- `processInvoiceOnCreateV2` from the source: on a document-created event,
act only when the snapshot's status is exactly `"uploaded"` and
`skipProcessing` is not set; otherwise the event is ignored and the stored
record is unchanged. -/
def processInvoiceOnCreateV2 (env : Env) (data : InvoiceRecord) : InvoiceRecord :=
  if data.status = some "uploaded" && !data.skipProcessing then
    processInvoiceDocument env data true
  else data

/-- The `HttpsError` codes thrown by the callable functions. -/
inductive HttpsErrorCode where
  | unauthenticated
  | invalidArgument
  | notFound
  | permissionDenied
  | failedPrecondition
deriving DecidableEq, Repr

/-- `reprocessInvoiceV2` from the source.  `authUid` is the caller identity
(`none`: unauthenticated; the source also rejects an empty uid, since
`!request.auth?.uid` tests truthiness), `invoiceIdRaw` the request payload
field, and `stored` the document-store lookup result for the trimmed id.
On success the processing body runs and `{ok: true}` is returned together
with the updated record. -/
def reprocessInvoiceV2 (env : Env) (authUid : Option String) (invoiceIdRaw : Option String)
    (stored : Option InvoiceRecord) : Except HttpsErrorCode InvoiceRecord :=
  if authUid.getD "" = "" then .error .unauthenticated
  else
    let invoiceId := trimStr (invoiceIdRaw.getD "")
    if invoiceId = "" then .error .invalidArgument
    else
      match stored with
      | none => .error .notFound
      | some data =>
        if data.userId ≠ authUid then .error .permissionDenied
        else if data.status = some "finalized" then .error .failedPrecondition
        else if data.storagePath.getD "" = "" then .error .failedPrecondition
        else .ok (processInvoiceDocument env data true)

/-- The review page's `save(status)` (invoked by both the Save and the
Finalize buttons): refuse when the viewer is not the owner (`canEdit`), when
the route has no invoice id, or when the record is already finalized;
otherwise merge the edited payload and the new status into the record.
`payload` abstracts the form-state conversion (the claim-relevant logic is
the guard). `none` models "no write issued". -/
def savePage (canEdit : Bool) (hasInvoiceId : Bool) (inv : InvoiceRecord)
    (payload : InvoiceFields) (newStatus : String) : Option InvoiceRecord :=
  if !canEdit || !hasInvoiceId then none
  else if inv.status = some "finalized" then none
  else some { inv with fields := payload, status := some newStatus }

/-- All-null canonical fields (the state of a freshly uploaded record). -/
def emptyFields : InvoiceFields :=
  { supplierName := none, supplierAddress := none, invoiceNumber := none,
    purchaseOrderNumber := none, invoiceDate := none, dueDate := none,
    subtotal := none, tax := none, total := none, lineItems := [] }

/-- An oracle whose extraction pipeline always fails. -/
def envBoom : Env := { extraction := fun _ => .error "boom" }

/-- An oracle whose extraction pipeline succeeds with no entities. -/
def envOk : Env := { extraction := fun _ => .ok [] }

/-- A finalized record owned by `"alice"`. -/
def finalizedRec : InvoiceRecord :=
  { userId := some "alice", status := some "finalized", storagePath := some "inv/p.pdf",
    contentType := some "application/pdf", skipProcessing := false,
    errorMessage := none, fields := emptyFields }

/-- A record awaiting review, owned by `"alice"`. -/
def reviewRec : InvoiceRecord :=
  { userId := some "alice", status := some "needs_review", storagePath := some "inv/p.pdf",
    contentType := some "application/pdf", skipProcessing := false,
    errorMessage := none, fields := emptyFields }

/-- A freshly uploaded record, owned by `"alice"`. -/
def uploadedRec : InvoiceRecord :=
  { userId := some "alice", status := some "uploaded", storagePath := some "inv/p.pdf",
    contentType := some "application/pdf", skipProcessing := false,
    errorMessage := some "old failure", fields := emptyFields }

/-- An entity carrying structured money `units = 20, nanos = 500000000`
(with a decoy mention text that would parse differently). -/
def moneyEnt : RawEntity :=
  .mk (some "total_amount") (some "999")
    (some { text := none, moneyValue := some { units := some 20, nanos := some 500000000 },
            dateValue := none })
    none none

/-- An entity carrying only the text `"$1,234.56"`. -/
def textMoneyEnt : RawEntity :=
  .mk (some "total_amount") (some "$1,234.56") none none none

/-- An entity carrying only the text `"n/a"`. -/
def naEnt : RawEntity :=
  .mk (some "total_amount") (some "n/a") none none none

/-- An entity whose money value has only `nanos` defined (decoy text). -/
def nanosOnlyEnt : RawEntity :=
  .mk (some "total_amount") (some "999")
    (some { text := none, moneyValue := some { units := none, nanos := some 500000000 },
            dateValue := none })
    none none

/-- An entity whose money value has only `units` defined (decoy text). -/
def unitsOnlyEnt : RawEntity :=
  .mk (some "total_amount") (some "999")
    (some { text := none, moneyValue := some { units := some 7, nanos := none },
            dateValue := none })
    none none

/-- An entity with neither a normalized value nor mention text. -/
def bareEnt : RawEntity :=
  .mk (some "line_item") none none none none

/-- Structured-money branch of `entityMoneyToNumber`: when
`normalizedValue.moneyValue` is present with `units` or `nanos` defined, the
result is `units + nanos / 1e9` and the text fallback is not consulted. -/
theorem entityMoneyToNumber_structured (e : RawEntity) (mv : MoneyValue)
    (hmv : entityNormalizedMoney e = some mv)
    (h : (mv.units.isSome || mv.nanos.isSome) = true) :
    entityMoneyToNumber (some e) =
      some ((mv.units.getD 0 : ℚ) + (mv.nanos.getD 0 : ℚ) / 1000000000) := by
  simp [entityMoneyToNumber, hmv, h]

/-- Fallback branch of `entityMoneyToNumber`: when no usable structured money
value exists, the entity's text is parsed loosely. -/
theorem entityMoneyToNumber_fallback (e : RawEntity) (t : String)
    (hmv : ∀ mv, entityNormalizedMoney e = some mv →
      (mv.units.isSome || mv.nanos.isSome) = false)
    (ht : entityText (some e) = some t) (hne : t ≠ "") :
    entityMoneyToNumber (some e) = toNumberLoose t := by
  cases h : entityNormalizedMoney e with
  | none => simp [entityMoneyToNumber, h, ht, hne]
  | some mv => simp [entityMoneyToNumber, h, hmv mv h, ht, hne]

/-- The backfill step never overwrites a present amount. -/
theorem backfill_amount_some (q u : Option ℚ) (a : ℚ) :
    (backfill q u (some a)).2 = some a := by
  cases q <;> cases u <;> rfl

/-- The backfill step never overwrites a present unit price. -/
theorem backfill_unit_some (q : Option ℚ) (u : ℚ) (a : Option ℚ) :
    (backfill q (some u) a).1 = some u := by
  cases q <;> cases a <;> rfl

/-- With neither money role assigned, the backfill step assigns nothing. -/
theorem backfill_none_none (q : Option ℚ) : backfill q none none = (none, none) := by
  cases q <;> rfl

/-- Role assignment with at least two money matches. -/
theorem moneyRoles_two (ms : List (ℚ × ℕ)) (h : 2 ≤ ms.length) :
    moneyRoles ms =
      (some (ms.getD (ms.length - 2) (0, 0)).1, some (ms.getD (ms.length - 1) (0, 0)).1) := by
  unfold moneyRoles
  rw [if_pos h]

/-- Role assignment with exactly one money match. -/
theorem moneyRoles_one (ms : List (ℚ × ℕ)) (h : ms.length = 1) :
    moneyRoles ms = (none, some (ms.getD 0 (0, 0)).1) := by
  unfold moneyRoles
  rw [if_neg (by omega), if_pos h]

/-- Role assignment with no money match. -/
theorem moneyRoles_zero (ms : List (ℚ × ℕ)) (h : ms.length = 0) :
    moneyRoles ms = (none, none) := by
  unfold moneyRoles
  rw [if_neg (by omega), if_neg (by omega)]

/-- C1: a record whose stored status is `"finalized"` is mutated by no
operation of this core: the document-created trigger ignores it, a reprocess
request fails with an error before the processing body could write, and the
review page's save/finalize path issues no write. -/
theorem claim_C1 (data : InvoiceRecord) (hfin : data.status = some "finalized") :
    (∀ env, processInvoiceOnCreateV2 env data = data) ∧
    (∀ env authUid invoiceIdRaw, ∃ c,
      reprocessInvoiceV2 env authUid invoiceIdRaw (some data) = .error c) ∧
    (∀ canEdit hasInvoiceId payload newStatus,
      savePage canEdit hasInvoiceId data payload newStatus = none) := by
  refine ⟨?_, ?_, ?_⟩
  · intro env
    simp [processInvoiceOnCreateV2, hfin]
  · intro env authUid invoiceIdRaw
    unfold reprocessInvoiceV2
    by_cases h1 : authUid.getD "" = ""
    · exact ⟨.unauthenticated, by simp [h1]⟩
    · by_cases h2 : trimStr (invoiceIdRaw.getD "") = ""
      · exact ⟨.invalidArgument, by simp [h1, h2]⟩
      · by_cases h3 : data.userId ≠ authUid
        · exact ⟨.permissionDenied, by simp [h1, h2, h3]⟩
        · exact ⟨.failedPrecondition, by simp [h1, h2, h3, hfin]⟩
  · intro canEdit hasInvoiceId payload newStatus
    unfold savePage
    by_cases h : (!canEdit || !hasInvoiceId) = true
    · simp [h]
    · simp [h, hfin]

/-- Concrete instance of C1 on a finalized record. -/
theorem claim_C1_witness :
    finalizedRec.status = some "finalized" ∧
    processInvoiceOnCreateV2 envBoom finalizedRec = finalizedRec ∧
    (∃ c, reprocessInvoiceV2 envBoom (some "alice") (some "id1") (some finalizedRec) = .error c) ∧
    savePage true true finalizedRec emptyFields "finalized" = none := by
  have h := claim_C1 finalizedRec rfl
  exact ⟨rfl, h.1 envBoom, h.2.1 envBoom (some "alice") (some "id1"),
    h.2.2 true true emptyFields "finalized"⟩

/-- C2: whatever the outcome, the processing body never leaves the record in
`processing`; on a missing storage path or a failing fetch/extraction
pipeline it writes `status = error` with the failure's description and leaves
every previously stored canonical field value unchanged. -/
theorem claim_C2 (env : Env) (data : InvoiceRecord) (clearError : Bool) :
    (data.storagePath.getD "" = "" →
      (processInvoiceDocument env data clearError).status = some "error" ∧
      (processInvoiceDocument env data clearError).errorMessage =
        some "Missing storagePath on invoice document." ∧
      (processInvoiceDocument env data clearError).fields = data.fields) ∧
    (∀ msg, data.storagePath.getD "" ≠ "" →
      env.extraction (data.storagePath.getD "") = .error msg →
      (processInvoiceDocument env data clearError).status = some "error" ∧
      (processInvoiceDocument env data clearError).errorMessage = some msg ∧
      (processInvoiceDocument env data clearError).fields = data.fields) ∧
    (processInvoiceDocument env data clearError).status ≠ some "processing" := by
  refine ⟨?_, ?_, ?_⟩
  · intro h
    simp [processInvoiceDocument, h]
  · intro msg h hext
    simp [processInvoiceDocument, h, hext]
  · by_cases h : data.storagePath.getD "" = ""
    · simp [processInvoiceDocument, h]
    · cases hext : env.extraction (data.storagePath.getD "") with
      | error msg => simp [processInvoiceDocument, h, hext]
      | ok entities => simp [processInvoiceDocument, h, hext]

/-- Concrete instance of C2 on a failing extraction pipeline. -/
theorem claim_C2_witness :
    (processInvoiceDocument envBoom uploadedRec true).status = some "error" ∧
    (processInvoiceDocument envBoom uploadedRec true).errorMessage = some "boom" ∧
    (processInvoiceDocument envBoom uploadedRec true).fields = uploadedRec.fields ∧
    (processInvoiceDocument envBoom uploadedRec true).status ≠ some "processing" := by
  have h := claim_C2 envBoom uploadedRec true
  have h2 := h.2.1 "boom" (by decide) rfl
  exact ⟨h2.1, h2.2.1, h2.2.2, h.2.2⟩

/-- C4: the document-created handler starts the processing body exactly when
the snapshot status is `"uploaded"` and the skip-processing flag is unset;
for every other snapshot the event is a no-op (the stored record is unchanged
and no extraction call is made, the result being independent of the
oracle). -/
theorem claim_C4 (env : Env) (data : InvoiceRecord) :
    (data.status = some "uploaded" → data.skipProcessing = false →
      processInvoiceOnCreateV2 env data = processInvoiceDocument env data true) ∧
    (data.status ≠ some "uploaded" ∨ data.skipProcessing = true →
      processInvoiceOnCreateV2 env data = data) := by
  constructor
  · intro h1 h2
    simp [processInvoiceOnCreateV2, h1, h2]
  · intro h
    rcases h with h | h
    · simp [processInvoiceOnCreateV2, h]
    · simp [processInvoiceOnCreateV2, h]

/-- Concrete instance of C4: an event for a record already in `needs_review`
is a no-op. -/
theorem claim_C4_witness :
    processInvoiceOnCreateV2 envBoom reviewRec = reviewRec ∧
    processInvoiceOnCreateV2 envOk uploadedRec = processInvoiceDocument envOk uploadedRec true := by
  exact ⟨(claim_C4 envBoom reviewRec).2 (Or.inl (by decide)),
    (claim_C4 envOk uploadedRec).1 rfl rfl⟩

/-- C3: the reprocess request's guard chain — Unauthenticated with no caller
identity; InvalidArgument on a missing/blank id; NotFound when no record is
stored; PermissionDenied when the caller is not the owner (before any
processing I/O, the outcome being independent of the oracle);
FailedPrecondition when the record is finalized or has no storage path;
otherwise the processing body runs and the call succeeds. -/
theorem claim_C3 (env : Env) (authUid invoiceIdRaw : Option String)
    (stored : Option InvoiceRecord) :
    (authUid = none →
      reprocessInvoiceV2 env authUid invoiceIdRaw stored = .error .unauthenticated) ∧
    (∀ uid, authUid = some uid → uid ≠ "" → trimStr (invoiceIdRaw.getD "") = "" →
      reprocessInvoiceV2 env authUid invoiceIdRaw stored = .error .invalidArgument) ∧
    (∀ uid, authUid = some uid → uid ≠ "" → trimStr (invoiceIdRaw.getD "") ≠ "" →
      stored = none →
      reprocessInvoiceV2 env authUid invoiceIdRaw stored = .error .notFound) ∧
    (∀ uid data, authUid = some uid → uid ≠ "" → trimStr (invoiceIdRaw.getD "") ≠ "" →
      stored = some data → data.userId ≠ some uid →
      reprocessInvoiceV2 env authUid invoiceIdRaw stored = .error .permissionDenied) ∧
    (∀ uid data, authUid = some uid → uid ≠ "" → trimStr (invoiceIdRaw.getD "") ≠ "" →
      stored = some data → data.userId = some uid →
      (data.status = some "finalized" ∨ data.storagePath.getD "" = "") →
      reprocessInvoiceV2 env authUid invoiceIdRaw stored = .error .failedPrecondition) ∧
    (∀ uid data, authUid = some uid → uid ≠ "" → trimStr (invoiceIdRaw.getD "") ≠ "" →
      stored = some data → data.userId = some uid →
      data.status ≠ some "finalized" → data.storagePath.getD "" ≠ "" →
      reprocessInvoiceV2 env authUid invoiceIdRaw stored =
        .ok (processInvoiceDocument env data true)) := by
  refine ⟨?_, ?_, ?_, ?_, ?_, ?_⟩
  · intro h
    simp [reprocessInvoiceV2, h]
  · intro uid h1 h2 h3
    subst h1
    simp [reprocessInvoiceV2, h2, h3]
  · intro uid h1 h2 h3 h4
    subst h1
    subst h4
    simp [reprocessInvoiceV2, h2, h3]
  · intro uid data h1 h2 h3 h4 h5
    subst h1
    subst h4
    simp [reprocessInvoiceV2, h2, h3, h5]
  · intro uid data h1 h2 h3 h4 h5 h6
    subst h1
    subst h4
    rcases h6 with h6 | h6
    · simp [reprocessInvoiceV2, h2, h3, h5, h6]
    · by_cases hfin : data.status = some "finalized"
      · simp [reprocessInvoiceV2, h2, h3, h5, hfin]
      · simp [reprocessInvoiceV2, h2, h3, h5, hfin, h6]
  · intro uid data h1 h2 h3 h4 h5 h6 h7
    subst h1
    subst h4
    simp [reprocessInvoiceV2, h2, h3, h5, h6, h7]

/-- Concrete instances of C3: a non-owner is rejected with PermissionDenied
and an owner's request on a processable record succeeds. -/
theorem claim_C3_witness :
    reprocessInvoiceV2 envBoom (some "mallory") (some "id1") (some reviewRec) =
      .error .permissionDenied ∧
    reprocessInvoiceV2 envOk (some "alice") (some " id1 ") (some reviewRec) =
      .ok (processInvoiceDocument envOk reviewRec true) := by
  constructor
  · exact (claim_C3 envBoom (some "mallory") (some "id1") (some reviewRec)).2.2.2.1
      "mallory" reviewRec rfl (by decide) (by decide) rfl (by decide)
  · exact (claim_C3 envOk (some "alice") (some " id1 ") (some reviewRec)).2.2.2.2.2
      "alice" reviewRec rfl (by decide) (by decide) rfl rfl (by decide) (by decide)

set_option maxRecDepth 100000

/-- C5 fails on the code: for the input `"2 Widget A 10.00 20.00"` the
trailing-quantity strip (`\b2\b\s*$`) does not match, because the quantity
token `2` is leading rather than trailing, so the description keeps it. -/
theorem claim_C5_counterexample :
    (parseLineItemFromMentionText "2 Widget A 10.00 20.00").description ≠ some "Widget A" := by
  intro h
  rw [show (parseLineItemFromMentionText "2 Widget A 10.00 20.00").description =
      some "2 Widget A" from rfl] at h
  simp at h

/-- C5 (amended): the parser maps `"2 Widget A 10.00 20.00"` to
`{description: "2 Widget A", quantity: 2, unitPrice: 10.00, amount: 20.00}`;
the description is the substring before the first money match with a
*trailing* standalone quantity token stripped — here the quantity token is
leading, so it is kept. -/
theorem claim_C5 :
    parseLineItemFromMentionText "2 Widget A 10.00 20.00" =
      { description := some "2 Widget A", quantity := some 2,
        unitPrice := some 10, amount := some 20 } := by
  have h : parseLineItemFromMentionText "2 Widget A 10.00 20.00" =
      { description := some "2 Widget A", quantity := some ((2 : ℕ) : ℚ),
        unitPrice := some (decValue ['1', '0'] ['0', '0']),
        amount := some (decValue ['2', '0'] ['0', '0']) } := rfl
  rw [h]
  simp only [decValue, show digitsToNat ['1', '0'] = 10 from rfl,
    show digitsToNat ['2', '0'] = 20 from rfl, show digitsToNat ['0', '0'] = 0 from rfl]
  norm_num

/-- C6 (amended): money coercion returns `units + nanos / 1e9` whenever a
structured money value with `units` or `nanos` defined is present; otherwise
it loosely parses the entity's text, so `"$1,234.56"` yields `1234.56` — and
`"n/a"` yields `0`, since stripping every non-numeric character leaves the
empty string, which JS parses as the (finite) number `0`. -/
theorem claim_C6 :
    (∀ (e : RawEntity) (mv : MoneyValue), entityNormalizedMoney e = some mv →
      (mv.units.isSome || mv.nanos.isSome) = true →
      entityMoneyToNumber (some e) =
        some ((mv.units.getD 0 : ℚ) + (mv.nanos.getD 0 : ℚ) / 1000000000)) ∧
    (∀ (e : RawEntity) (t : String),
      (∀ mv, entityNormalizedMoney e = some mv →
        (mv.units.isSome || mv.nanos.isSome) = false) →
      entityText (some e) = some t → t ≠ "" →
      entityMoneyToNumber (some e) = toNumberLoose t) ∧
    entityMoneyToNumber (some moneyEnt) = some 20.5 ∧
    entityMoneyToNumber (some textMoneyEnt) = some 1234.56 ∧
    entityMoneyToNumber (some naEnt) = some 0 := by
  refine ⟨entityMoneyToNumber_structured, entityMoneyToNumber_fallback, ?_, ?_, rfl⟩
  · rw [show entityMoneyToNumber (some moneyEnt) =
        some (((20 : ℤ) : ℚ) + ((500000000 : ℤ) : ℚ) / 1000000000) from rfl]
    simp only [Option.some.injEq]
    norm_num
  · rw [show entityMoneyToNumber (some textMoneyEnt) =
        some (decValue ['1', '2', '3', '4'] ['5', '6']) from rfl]
    simp only [decValue, show digitsToNat ['1', '2', '3', '4'] = 1234 from rfl,
      show digitsToNat ['5', '6'] = 56 from rfl, Option.some.injEq]
    norm_num

/-- C6 fails on the code at the text `"n/a"`: stripping leaves `""`, which JS
`Number` parses as `0`, so the coercion returns `0` rather than null. -/
theorem claim_C6_counterexample :
    entityMoneyToNumber (some naEnt) = some 0 ∧
    entityMoneyToNumber (some naEnt) ≠ none := by
  constructor
  · rfl
  · intro h
    rw [show entityMoneyToNumber (some naEnt) = some 0 from rfl] at h
    simp at h

/-- Concrete instance of C6's structured and fallback branches. -/
theorem claim_C6_witness :
    entityMoneyToNumber (some moneyEnt) =
      some (((MoneyValue.mk (some 20) (some 500000000)).units.getD 0 : ℚ) +
        ((MoneyValue.mk (some 20) (some 500000000)).nanos.getD 0 : ℚ) / 1000000000) ∧
    entityMoneyToNumber (some textMoneyEnt) = toNumberLoose "$1,234.56" := by
  constructor
  · exact claim_C6.1 moneyEnt (MoneyValue.mk (some 20) (some 500000000)) rfl rfl
  · exact claim_C6.2.1 textMoneyEnt "$1,234.56" (fun mv hmv => by cases hmv) rfl
      (by decide)

/-- The unit-price field of a built line item is the backfilled first money
role. -/
theorem buildLineItem_unitPrice (mt : List Char) :
    (buildLineItem mt).unitPrice =
      (backfill (quantityOf mt) (moneyRoles (moneyMatchesChars mt)).1
        (moneyRoles (moneyMatchesChars mt)).2).1 := rfl

/-- The amount field of a built line item is the backfilled second money
role. -/
theorem buildLineItem_amount (mt : List Char) :
    (buildLineItem mt).amount =
      (backfill (quantityOf mt) (moneyRoles (moneyMatchesChars mt)).1
        (moneyRoles (moneyMatchesChars mt)).2).2 := rfl

/-- C7: in the heuristic mention-text parse, with at least two money-shaped
matches the second-to-last becomes the unit price and the last the amount;
with exactly one match it becomes the amount (only); with none, both money
roles stay null — and `"Shipping fee 15.00"` parses to
`{description: "Shipping fee", quantity: null, unitPrice: null, amount: 15}`. -/
theorem claim_C7 (s : String) :
    (2 ≤ (moneyMatchesOf s).length →
      (parseLineItemFromMentionText s).unitPrice =
        some ((moneyMatchesOf s).getD ((moneyMatchesOf s).length - 2) (0, 0)).1 ∧
      (parseLineItemFromMentionText s).amount =
        some ((moneyMatchesOf s).getD ((moneyMatchesOf s).length - 1) (0, 0)).1) ∧
    ((moneyMatchesOf s).length = 1 →
      (parseLineItemFromMentionText s).amount = some ((moneyMatchesOf s).getD 0 (0, 0)).1) ∧
    ((moneyMatchesOf s).length = 0 →
      (parseLineItemFromMentionText s).unitPrice = none ∧
      (parseLineItemFromMentionText s).amount = none) ∧
    parseLineItemFromMentionText "Shipping fee 15.00" =
      { description := some "Shipping fee", quantity := none, unitPrice := none,
        amount := some 15 } := by
  have hship : parseLineItemFromMentionText "Shipping fee 15.00" =
      { description := some "Shipping fee", quantity := none, unitPrice := none,
        amount := some 15 } := by
    have h : parseLineItemFromMentionText "Shipping fee 15.00" =
        { description := some "Shipping fee", quantity := none, unitPrice := none,
          amount := some (decValue ['1', '5'] ['0', '0']) } := rfl
    rw [h]
    simp only [decValue, show digitsToNat ['1', '5'] = 15 from rfl,
      show digitsToNat ['0', '0'] = 0 from rfl]
    norm_num
  cases hmt : (collapseTrim s).isEmpty with
  | true =>
    have hnil : collapseTrim s = [] := by
      cases hcs : collapseTrim s with
      | nil => rfl
      | cons a l => rw [hcs] at hmt; simp at hmt
    have hms : moneyMatchesOf s = [] := by
      unfold moneyMatchesOf
      rw [hnil]
      rfl
    have hp : parseLineItemFromMentionText s =
        { description := none, quantity := none, unitPrice := none, amount := none } := by
      simp [parseLineItemFromMentionText, hmt]
    refine ⟨?_, ?_, ?_, hship⟩
    · intro h2; rw [hms] at h2; simp at h2
    · intro h1; rw [hms] at h1; simp at h1
    · intro _; rw [hp]; exact ⟨rfl, rfl⟩
  | false =>
    have hp : parseLineItemFromMentionText s = buildLineItem (collapseTrim s) := by
      simp [parseLineItemFromMentionText, hmt]
    have halign : moneyRoles (moneyMatchesChars (collapseTrim s)) =
        moneyRoles (moneyMatchesOf s) := rfl
    refine ⟨?_, ?_, ?_, hship⟩
    · intro h2
      have hr := moneyRoles_two (moneyMatchesOf s) h2
      constructor
      · rw [hp, buildLineItem_unitPrice, halign, hr]
        exact backfill_unit_some _ _ _
      · rw [hp, buildLineItem_amount, halign, hr]
        exact backfill_amount_some _ _ _
    · intro h1
      have hr := moneyRoles_one (moneyMatchesOf s) h1
      rw [hp, buildLineItem_amount, halign, hr]
      exact backfill_amount_some _ _ _
    · intro h0
      have hr := moneyRoles_zero (moneyMatchesOf s) h0
      constructor
      · rw [hp, buildLineItem_unitPrice, halign, hr]
        rw [show ((none, none) : Option ℚ × Option ℚ).1 = none from rfl,
          show ((none, none) : Option ℚ × Option ℚ).2 = none from rfl,
          backfill_none_none]
      · rw [hp, buildLineItem_amount, halign, hr]
        rw [show ((none, none) : Option ℚ × Option ℚ).1 = none from rfl,
          show ((none, none) : Option ℚ × Option ℚ).2 = none from rfl,
          backfill_none_none]

/-- Concrete instance of C7's tie-break rule on an input with two money
matches. -/
theorem claim_C7_witness :
    (parseLineItemFromMentionText "2 Widget A 10.00 20.00").unitPrice =
      some ((moneyMatchesOf "2 Widget A 10.00 20.00").getD
        ((moneyMatchesOf "2 Widget A 10.00 20.00").length - 2) (0, 0)).1 ∧
    (parseLineItemFromMentionText "2 Widget A 10.00 20.00").amount =
      some ((moneyMatchesOf "2 Widget A 10.00 20.00").getD
        ((moneyMatchesOf "2 Widget A 10.00 20.00").length - 1) (0, 0)).1 := by
  exact (claim_C7 "2 Widget A 10.00 20.00").1 (by rw [show moneyMatchesOf "2 Widget A 10.00 20.00" =
    [(decValue ['1', '0'] ['0', '0'], 11), (decValue ['2', '0'] ['0', '0'], 17)] from rfl]; simp)

/-- C8: the backfill arithmetic never overwrites an already-resolved value
and never divides by zero — the amount is derived (as `round2 (q * u)`) only
when it was null with quantity and unit price known; the unit price is
derived (as `round2 (a / q)`) only when it was null with amount and a
non-zero quantity known; with `quantity = 0` the unit price stays null. -/
theorem claim_C8 (q u a : Option ℚ) :
    ((backfill q u a).2 ≠ a → a = none ∧ q ≠ none ∧ u ≠ none) ∧
    ((backfill q u a).1 ≠ u → u = none ∧ q ≠ none ∧ q ≠ some 0 ∧ (backfill q u a).2 ≠ none) ∧
    (∀ qv uv, a = none → q = some qv → u = some uv →
      (backfill q u a).2 = some (round2 (qv * uv))) ∧
    (backfill (some 3) (some 4) none).2 = some 12 ∧
    (q = some 0 → u = none → (backfill q u a).1 = none) ∧
    (∀ qv av, u = none → q = some qv → qv ≠ 0 → a = some av →
      (backfill q u a).1 = some (round2 (av / qv))) := by
  refine ⟨?_, ?_, ?_, ?_, ?_, ?_⟩
  · intro h
    cases a with
    | some av => exact absurd (backfill_amount_some q u av) h
    | none =>
      cases q with
      | none => exact absurd (by cases u <;> rfl) h
      | some qv =>
        cases u with
        | none => exact absurd rfl h
        | some uv => exact ⟨rfl, by simp, by simp⟩
  · intro h
    cases u with
    | some uv => exact absurd (backfill_unit_some q uv a) h
    | none =>
      cases q with
      | none => exact absurd (by cases a <;> rfl) h
      | some qv =>
        cases a with
        | none => exact absurd rfl h
        | some av =>
          by_cases hq : qv = 0
          · subst hq
            refine absurd ?_ h
            show (if (0 : ℚ) ≠ 0 then some (round2 (av / 0)) else none) = none
            rw [if_neg (show ¬((0 : ℚ) ≠ 0) by norm_num)]
          · refine ⟨rfl, by simp, by simp [Option.some.injEq, hq], ?_⟩
            rw [backfill_amount_some]
            simp
  · intro qv uv ha hqe hue
    subst ha; subst hqe; subst hue
    rfl
  · rw [show (backfill (some 3) (some 4) none).2 = some (round2 (3 * 4)) from rfl]
    simp only [Option.some.injEq, round2]
    norm_num
  · intro hq hu
    subst hq; subst hu
    cases a with
    | none => rfl
    | some av =>
      show (if (0 : ℚ) ≠ 0 then some (round2 (av / 0)) else none) = none
      rw [if_neg (show ¬((0 : ℚ) ≠ 0) by norm_num)]
  · intro qv av hu hq hqv ha
    subst hu; subst hq; subst ha
    show (if qv ≠ 0 then some (round2 (av / qv)) else none) = some (round2 (av / qv))
    rw [if_pos hqv]

/-- Concrete instances of C8: amount backfilled from quantity and unit
price, and no division when the quantity is zero. -/
theorem claim_C8_witness :
    (backfill (some 3) (some 4) none).2 = some (round2 (3 * 4)) ∧
    (backfill (some 0) none (some 5)).1 = none := by
  exact ⟨(claim_C8 (some 3) (some 4) none).2.2.1 3 4 rfl rfl rfl,
    (claim_C8 (some 0) none (some 5)).2.2.2.2.1 rfl rfl⟩

/-- C9: the normalization pipeline is a total function of the entity list
(it is defined as such here, with no exceptional exit), and missing or
malformed entities yield null fields: an alias with no matching entity
leaves its field null, no `line_item` entities leave the items empty, the
empty entity list yields the all-null record, and an entity with neither a
normalized value nor mention text coerces to null under every coercer. -/
theorem claim_C9 (entities : List RawEntity) :
    (pickEntity entities supplierNameAliases = none →
      (normalizeFields entities).supplierName = none) ∧
    (pickEntity entities supplierAddressAliases = none →
      (normalizeFields entities).supplierAddress = none) ∧
    (pickEntity entities invoiceNumberAliases = none →
      (normalizeFields entities).invoiceNumber = none) ∧
    (pickEntity entities purchaseOrderAliases = none →
      (normalizeFields entities).purchaseOrderNumber = none) ∧
    (pickEntity entities invoiceDateAliases = none →
      (normalizeFields entities).invoiceDate = none) ∧
    (pickEntity entities dueDateAliases = none →
      (normalizeFields entities).dueDate = none) ∧
    (pickEntity entities subtotalAliases = none →
      (normalizeFields entities).subtotal = none) ∧
    (pickEntity entities taxAliases = none →
      (normalizeFields entities).tax = none) ∧
    (pickEntity entities totalAliases = none →
      (normalizeFields entities).total = none) ∧
    (entities.filter (fun e => lowerStr (e.type.getD "") = "line_item") = [] →
      (normalizeFields entities).lineItems = []) ∧
    normalizeFields [] = emptyFields ∧
    (∀ e : RawEntity, e.normalizedValue = none → e.mentionText = none →
      entityText (some e) = none ∧ entityMoneyToNumber (some e) = none ∧
      entityDateToTimestamp (some e) = none) := by
  refine ⟨?_, ?_, ?_, ?_, ?_, ?_, ?_, ?_, ?_, ?_, rfl, ?_⟩
  · intro h; simp [normalizeFields, h, entityText]
  · intro h; simp [normalizeFields, h, entityText]
  · intro h; simp [normalizeFields, h, entityText]
  · intro h; simp [normalizeFields, h, entityText]
  · intro h; simp [normalizeFields, h, entityDateToTimestamp]
  · intro h; simp [normalizeFields, h, entityDateToTimestamp]
  · intro h; simp [normalizeFields, h, entityMoneyToNumber]
  · intro h; simp [normalizeFields, h, entityMoneyToNumber]
  · intro h; simp [normalizeFields, h, entityMoneyToNumber]
  · intro h; simp [normalizeFields, parseLineItems, h]
  · intro e h1 h2
    cases e with
    | mk t m nv ps c =>
      simp only [RawEntity.normalizedValue] at h1
      simp only [RawEntity.mentionText] at h2
      subst h1; subst h2
      exact ⟨rfl, rfl, rfl⟩

/-- Concrete instance of C9 on the empty entity list and a bare entity. -/
theorem claim_C9_witness :
    (normalizeFields []).supplierName = none ∧
    (normalizeFields []).lineItems = [] ∧
    entityText (some bareEnt) = none ∧
    entityMoneyToNumber (some bareEnt) = none ∧
    entityDateToTimestamp (some bareEnt) = none := by
  have h := claim_C9 []
  have hm := h.2.2.2.2.2.2.2.2.2.2.2 bareEnt rfl rfl
  exact ⟨h.1 rfl, h.2.2.2.2.2.2.2.2.2.1 rfl, hm.1, hm.2.1, hm.2.2⟩

/-- C10: when `normalizedValue.moneyValue` is present with exactly one of
`units`/`nanos` defined, the missing component is treated as `0` and the
text fallback is not consulted (the result does not depend on the entity's
texts): `{nanos: 500000000}` alone yields `0.5` and `{units: 7}` alone
yields `7`. -/
theorem claim_C10 :
    (∀ (e : RawEntity) (n : ℤ),
      entityNormalizedMoney e = some { units := none, nanos := some n } →
      entityMoneyToNumber (some e) = some ((n : ℚ) / 1000000000)) ∧
    (∀ (e : RawEntity) (u : ℤ),
      entityNormalizedMoney e = some { units := some u, nanos := none } →
      entityMoneyToNumber (some e) = some (u : ℚ)) ∧
    entityMoneyToNumber (some nanosOnlyEnt) = some 0.5 ∧
    entityMoneyToNumber (some unitsOnlyEnt) = some 7 := by
  have h1 : ∀ (e : RawEntity) (n : ℤ),
      entityNormalizedMoney e = some { units := none, nanos := some n } →
      entityMoneyToNumber (some e) = some ((n : ℚ) / 1000000000) := by
    intro e n hmv
    rw [entityMoneyToNumber_structured e _ hmv rfl]
    simp
  have h2 : ∀ (e : RawEntity) (u : ℤ),
      entityNormalizedMoney e = some { units := some u, nanos := none } →
      entityMoneyToNumber (some e) = some (u : ℚ) := by
    intro e u hmv
    rw [entityMoneyToNumber_structured e _ hmv rfl]
    simp
  refine ⟨h1, h2, ?_, ?_⟩
  · rw [h1 nanosOnlyEnt 500000000 rfl]
    norm_num
  · rw [h2 unitsOnlyEnt 7 rfl]
    norm_num

/-- Concrete instance of C10 with only `nanos` defined. -/
theorem claim_C10_witness :
    entityMoneyToNumber (some nanosOnlyEnt) = some (((500000000 : ℤ) : ℚ) / 1000000000) :=
  claim_C10.1 nanosOnlyEnt 500000000 rfl
